import Mathlib

/-!
Verification of the time-bound account entitlement engine of the
MoviePilot-Plugins repository against its specification.

Two implementations of the engine exist in the source and are embedded here:

* `ERB` models `plugins.v2/embyregisterbot/__init__.py` (Telegram bot variant):
  registration codes are a mapping from code to grant days, users are a mapping
  from Telegram id to a user-info record with an absolute expiry timestamp and
  a string status field ("active" / "disabled" / "deleted").

* `EUM` models `plugins.v2/embyusermanager/__init__.py` (event-handler variant):
  tokens carry a kind ("register" / "renew") and a status ("unused" / "used"),
  bindings carry a date-granularity expiry and an append-only renew history.

Timestamps are modelled as `Int` (seconds).  Python `datetime` subtraction
followed by `.days` is floor division of the difference by 86400, which for the
positive divisor 86400 is `Int` division `/` (Euclidean = floor for positive
divisors).  Python dictionaries are modelled as association lists with the
operations `dictGet`, `dictSet` (replace in place or append) and `dictDel`.
-/

namespace EmbyVerify

/-- Lookup in an association list, mirroring Python `d[k]` / `k in d`. -/
def dictGet {α β : Type} [DecidableEq α] : List (α × β) → α → Option β
  | [], _ => none
  | p :: rest, k => if p.1 = k then some p.2 else dictGet rest k

/-- Assignment `d[k] = v`: replace the value at an existing key in place,
otherwise append the new pair at the end (Python dict insertion order). -/
def dictSet {α β : Type} [DecidableEq α] : List (α × β) → α → β → List (α × β)
  | [], k, v => [(k, v)]
  | p :: rest, k, v => if p.1 = k then (k, v) :: rest else p :: dictSet rest k v

/-- Deletion `del d[k]`: remove the key from the mapping. -/
def dictDel {α β : Type} [DecidableEq α] : List (α × β) → α → List (α × β)
  | [], _ => []
  | p :: rest, k => if p.1 = k then dictDel rest k else p :: dictDel rest k

theorem dictGet_dictSet_self {α β : Type} [DecidableEq α]
    (l : List (α × β)) (k : α) (v : β) : dictGet (dictSet l k v) k = some v := by
  induction l with
  | nil => simp [dictSet, dictGet]
  | cons p rest ih =>
    by_cases h : p.1 = k
    · simp [dictSet, h, dictGet]
    · simp [dictSet, h, dictGet, ih]

theorem dictGet_dictSet_ne {α β : Type} [DecidableEq α]
    (l : List (α × β)) (k k2 : α) (v : β) (h : k2 ≠ k) :
    dictGet (dictSet l k v) k2 = dictGet l k2 := by
  induction l with
  | nil =>
    have hk : ¬ k = k2 := fun hh => h hh.symm
    simp [dictSet, dictGet, hk]
  | cons p rest ih =>
    by_cases hp : p.1 = k
    · subst hp
      have hk2 : ¬ p.1 = k2 := fun hh => h hh.symm
      simp [dictSet, dictGet, hk2]
    · simp [dictSet, hp, dictGet, ih]

theorem dictGet_dictDel_self {α β : Type} [DecidableEq α]
    (l : List (α × β)) (k : α) : dictGet (dictDel l k) k = none := by
  induction l with
  | nil => simp [dictDel, dictGet]
  | cons p rest ih =>
    by_cases h : p.1 = k
    · simpa [dictDel, h] using ih
    · simp [dictDel, h, dictGet, ih]

theorem dictGet_dictDel_ne {α β : Type} [DecidableEq α]
    (l : List (α × β)) (k k2 : α) (h : k2 ≠ k) :
    dictGet (dictDel l k) k2 = dictGet l k2 := by
  induction l with
  | nil => simp [dictDel]
  | cons p rest ih =>
    by_cases hp : p.1 = k
    · subst hp
      have hk2 : ¬ p.1 = k2 := fun hh => h hh.symm
      simp [dictDel, dictGet, hk2, ih]
    · simp [dictDel, hp, dictGet, ih]

theorem dictGet_map_value {α β γ : Type} [DecidableEq α]
    (l : List (α × β)) (f : β → γ) (k : α) :
    dictGet (l.map (fun p => (p.1, f p.2))) k = (dictGet l k).map f := by
  induction l with
  | nil => simp [dictGet]
  | cons p rest ih =>
    by_cases h : p.1 = k
    · simp [dictGet, h]
    · simp [dictGet, h, ih]

/-- Python `(a - b).days` on datetimes: floor of the difference in days.
For the positive divisor 86400, `Int` division is floor division. -/
def daysBetween (a b : Int) : Int := (a - b) / 86400

/-- Truncation of a timestamp to the start of its day, the effect of
formatting a datetime with a date-only format and parsing it back. -/
def toDate (t : Int) : Int := 86400 * (t / 86400)

theorem daysBetween_self (t : Int) : daysBetween t t = 0 := by
  simp [daysBetween]

namespace ERB

/-- One entry of `_registered_users` in `embyregisterbot/__init__.py`:
`tg_username`, `emby_username`, `emby_user_id`, `register_time`,
`expire_time` (parsed to an absolute timestamp), `status` (a plain string:
"active", "disabled" or "deleted") and the optional `disabled_time`. -/
structure UserInfo where
  tgUsername : String
  embyUsername : String
  embyUserId : String
  registerTime : String
  expireTime : Int
  status : String
  disabledTime : Option Int
deriving DecidableEq, Repr

/-- Reply of `/renew` (`_cmd_renew`). -/
inductive RenewReply where
  | notRegistered
  | invalidCode
  | renewed (newExpire : Int) (days : Nat)
deriving DecidableEq, Repr

/-- Reply of `/register` (`_cmd_register`). -/
inductive RegisterReply where
  | alreadyRegistered
  | invalidCode
  | createFailed
  | registered (expire : Int) (days : Nat)
deriving DecidableEq, Repr

/-- The expiry rule of `_cmd_renew` (lines 516-525): if the old expiry is in
the past, extend from now, otherwise extend from the old expiry. -/
def renewExpiry (oldExpire now : Int) (days : Nat) : Int :=
  if oldExpire < now then now + 86400 * (days : Int)
  else oldExpire + 86400 * (days : Int)

/-- `_cmd_renew`: look up the caller, validate the code, re-enable a disabled
account when the gateway call succeeds, extend the expiry, delete the used
code.  The state of the binding is never checked against "deleted". -/
def cmdRenew (users : List (Nat × UserInfo)) (codes : List (String × Nat))
    (userId : Nat) (code : String) (now : Int) (enableOk : Bool) :
    List (Nat × UserInfo) × List (String × Nat) × RenewReply :=
  match dictGet users userId with
  | none => (users, codes, .notRegistered)
  | some info =>
    match dictGet codes code with
    | none => (users, codes, .invalidCode)
    | some days =>
      let info1 :=
        if info.status = "disabled" then
          if enableOk then { info with status := "active", disabledTime := none }
          else info
        else info
      let newExpire := renewExpiry info1.expireTime now days
      let info2 := { info1 with expireTime := newExpire }
      (dictSet users userId info2, dictDel codes code, .renewed newExpire days)

/-- `_cmd_register`: reject a caller that already has a non-deleted binding,
validate the code, create the Emby account (outcome `createOk`), and only on
success store the binding and delete the used code. -/
def cmdRegister (users : List (Nat × UserInfo)) (codes : List (String × Nat))
    (userId : Nat) (username embyUsername code : String) (now : Int)
    (nowStr : String) (createOk : Bool) (newEmbyId : String) :
    List (Nat × UserInfo) × List (String × Nat) × RegisterReply :=
  let already :=
    match dictGet users userId with
    | some info => decide (info.status ≠ "deleted")
    | none => false
  if already then (users, codes, .alreadyRegistered)
  else
    match dictGet codes code with
    | none => (users, codes, .invalidCode)
    | some days =>
      if createOk then
        let info : UserInfo :=
          { tgUsername := "@" ++ username
            embyUsername := embyUsername
            embyUserId := newEmbyId
            registerTime := nowStr
            expireTime := now + 86400 * (days : Int)
            status := "active"
            disabledTime := none }
        (dictSet users userId info, dictDel codes code, .registered (now + 86400 * (days : Int)) days)
      else (users, codes, .createFailed)

/-- Messages emitted by the hourly `_check_expired_users` pass. -/
inductive Msg where
  | disabledNotice
  | deletedNotice
deriving DecidableEq, Repr

/-- One iteration of the loop body of `_check_expired_users` on a single user:
an active user past expiry is disabled (when the gateway call succeeds) and
notified; a user disabled for at least 7 days is deleted (when the gateway
call succeeds) and notified; everything else is untouched. -/
def sweepExpiredUser (now : Int) (disableOk deleteOk : Bool) (info : UserInfo) :
    UserInfo × List Msg :=
  if info.status = "active" ∧ info.expireTime < now then
    if disableOk then
      ({ info with status := "disabled", disabledTime := some now }, [.disabledNotice])
    else (info, [])
  else if info.status = "disabled" then
    if 7 ≤ daysBetween now (info.disabledTime.getD info.expireTime) then
      if deleteOk then ({ info with status := "deleted" }, [.deletedNotice])
      else (info, [])
    else (info, [])
  else (info, [])

/-- `_check_expired_users` over the whole user table, collecting the emitted
messages tagged with the Telegram id. -/
def checkExpiredUsers (now : Int) (disableOk deleteOk : Nat → Bool) :
    List (Nat × UserInfo) → List (Nat × UserInfo) × List (Nat × Msg)
  | [] => ([], [])
  | (uid, info) :: rest =>
    let r := sweepExpiredUser now (disableOk uid) (deleteOk uid) info
    let rr := checkExpiredUsers now disableOk deleteOk rest
    ((uid, r.1) :: rr.1, r.2.map (fun m => (uid, m)) ++ rr.2)

/-- `_check_expiring_users`: every active user with `0 < days_left <=
expire_warning_days` is sent a warning carrying the remaining days.  The pass
keeps no record of warnings already sent. -/
def expiringWarnings (now warnDays : Int) (users : List (Nat × UserInfo)) :
    List (Nat × Int) :=
  users.filterMap (fun p =>
    if p.2.status = "active" ∧ 0 < daysBetween p.2.expireTime now ∧
        daysBetween p.2.expireTime now ≤ warnDays
    then some (p.1, daysBetween p.2.expireTime now) else none)

/-- One iteration of the hourly check loop: `_check_expiring_users` followed
by `_check_expired_users`. -/
def fullSweep (now warnDays : Int) (disableOk deleteOk : Nat → Bool)
    (users : List (Nat × UserInfo)) :
    List (Nat × UserInfo) × List (Nat × Int) × List (Nat × Msg) :=
  let w := expiringWarnings now warnDays users
  let r := checkExpiredUsers now disableOk deleteOk users
  (r.1, w, r.2)

/-- One persisted line of the `registered_users` config text as produced by
`_generate_config_text`: the expiry is stored as `max(0, days until expiry)`,
not as the absolute timestamp, and the disabled time survives only for
disabled users. -/
structure SavedUser where
  tgUsername : String
  tgId : Nat
  registerTime : String
  daysLeft : Int
  embyUsername : String
  embyUserId : String
  status : String
  disabledTime : Option Int
deriving DecidableEq, Repr

/-- Serialization of one user by `_generate_config_text` (lines 146-157). -/
def saveUser (now : Int) (uid : Nat) (info : UserInfo) : SavedUser :=
  { tgUsername := info.tgUsername
    tgId := uid
    registerTime := info.registerTime
    daysLeft := max 0 (daysBetween info.expireTime now)
    embyUsername := info.embyUsername
    embyUserId := info.embyUserId
    status := info.status
    disabledTime := if info.status = "disabled" then info.disabledTime else none }

/-- `_generate_config_text` over the user table: users with status "deleted"
produce no line. -/
def generateUsersConfig (now : Int) : List (Nat × UserInfo) → List SavedUser
  | [] => []
  | (uid, info) :: rest =>
    if info.status = "deleted" then generateUsersConfig now rest
    else saveUser now uid info :: generateUsersConfig now rest

/-- `_parse_registered_users` on one line (lines 104-130): the expiry is
reconstructed as `load-time now + days_left` days. -/
def loadUser (loadNow : Int) (s : SavedUser) : Nat × UserInfo :=
  (s.tgId,
    { tgUsername := s.tgUsername
      embyUsername := s.embyUsername
      embyUserId := s.embyUserId
      registerTime := s.registerTime
      expireTime := loadNow + 86400 * s.daysLeft
      status := s.status
      disabledTime := if s.status = "disabled" then s.disabledTime else none })

end ERB

namespace EUM

/-- One grant event in a binding's `renew_history` in
`embyusermanager/__init__.py`: `{renew_at, days, renew_code, operator}`. -/
structure RenewEvent where
  renewAt : String
  days : Nat
  renewCode : String
  operator : String
deriving DecidableEq, Repr

/-- One entry of `_user_bindings`, keyed by the Telegram id: there is no
state field and no disabled timestamp; `expire_at` is stored as a date
(midnight-aligned timestamp). -/
structure Binding where
  telegramId : String
  telegramUsername : String
  embyUsername : String
  embyUserId : String
  createdAt : String
  expireAt : Int
  renewHistory : List RenewEvent
deriving DecidableEq, Repr

/-- One entry of `_tokens`: kind and status are the strings used by the
source ("register" / "renew", "unused" / "used"). -/
structure TokenInfo where
  token : String
  kind : String
  generatedAt : String
  days : Nat
  status : String
  usedByTgId : Option String
  usedByEmbyUsername : Option String
  usedAt : Option String
deriving DecidableEq, Repr

/-- The two persisted collections of the manager. -/
structure ManagerState where
  tokens : List (String × TokenInfo)
  bindings : List (String × Binding)
deriving DecidableEq, Repr

/-- Replies of the command handlers, one constructor per distinct message. -/
inductive Reply where
  | alreadyRegistered
  | tokenNotFound
  | wrongTokenKind
  | tokenAlreadyUsed
  | createFailed
  | registered
  | notRegistered
  | renewTokenNotFound
  | wrongRenewKind
  | renewTokenAlreadyUsed
  | renewed (oldExpire newExpire : Int) (days : Nat)
  | userNotFound
  | adminRenewed (oldExpire newExpire : Int) (days : Nat)
deriving DecidableEq, Repr

/-- The expiry rule shared by `_handle_renew` (lines 710-720) and
`_handle_renew_user` (lines 845-854): extend from now when already expired,
from the old expiry otherwise, then store the result as a date string. -/
def renewExpiry (oldExpire now : Int) (days : Nat) : Int :=
  if oldExpire < now then toDate (now + 86400 * (days : Int))
  else toDate (oldExpire + 86400 * (days : Int))

/-- `_handle_register` (lines 588-656): an unregistered caller redeems an
unused register token; the Emby account is created first (outcome
`createOk`); only on success are the binding stored, the token marked used
and the data saved. -/
def handleRegister (st : ManagerState) (userId username tok : String)
    (now : Int) (nowStr : String) (createOk : Bool) (embyUserId : String) :
    ManagerState × Reply :=
  if (dictGet st.bindings userId).isSome then (st, .alreadyRegistered)
  else
    match dictGet st.tokens tok with
    | none => (st, .tokenNotFound)
    | some ti =>
      if ¬ ti.kind = "register" then (st, .wrongTokenKind)
      else if ¬ ti.status = "unused" then (st, .tokenAlreadyUsed)
      else if ¬ createOk then (st, .createFailed)
      else
        let embyUsername := "user_" ++ userId
        let b : Binding :=
          { telegramId := userId
            telegramUsername := username
            embyUsername := embyUsername
            embyUserId := embyUserId
            createdAt := nowStr
            expireAt := toDate (now + 86400 * (ti.days : Int))
            renewHistory := [⟨nowStr, ti.days, tok, "register"⟩] }
        let ti2 : TokenInfo :=
          { ti with
              status := "used"
              usedByTgId := some userId
              usedByEmbyUsername := some embyUsername
              usedAt := some nowStr }
        ({ tokens := dictSet st.tokens tok ti2,
           bindings := dictSet st.bindings userId b }, .registered)

/-- `_handle_renew` (lines 677-754): a registered caller redeems an unused
renew token; the expiry is extended, one event appended to the history, the
token marked used. -/
def handleRenew (st : ManagerState) (userId tok : String)
    (now : Int) (nowStr : String) : ManagerState × Reply :=
  match dictGet st.bindings userId with
  | none => (st, .notRegistered)
  | some b =>
    match dictGet st.tokens tok with
    | none => (st, .renewTokenNotFound)
    | some ti =>
      if ¬ ti.kind = "renew" then (st, .wrongRenewKind)
      else if ¬ ti.status = "unused" then (st, .renewTokenAlreadyUsed)
      else
        let newExpire := renewExpiry b.expireAt now ti.days
        let b2 : Binding :=
          { b with
              expireAt := newExpire
              renewHistory := b.renewHistory ++ [⟨nowStr, ti.days, tok, "self"⟩] }
        let ti2 : TokenInfo :=
          { ti with
              status := "used"
              usedByTgId := some userId
              usedByEmbyUsername := some b.embyUsername
              usedAt := some nowStr }
        ({ tokens := dictSet st.tokens tok ti2,
           bindings := dictSet st.bindings userId b2 },
         .renewed b.expireAt newExpire ti.days)

/-- Linear search of `_user_bindings` by Emby username, as in
`_handle_renew_user` and `_handle_user_del`. -/
def findByEmbyUsername : List (String × Binding) → String → Option (String × Binding)
  | [], _ => none
  | p :: rest, name =>
    if p.2.embyUsername = name then some p else findByEmbyUsername rest name

/-- `_handle_renew_user` (lines 816-890): admin direct renewal without a
token; same expiry rule, history event with code "admin_direct" and
operator "admin". -/
def handleRenewUser (st : ManagerState) (embyUsername : String) (days : Nat)
    (now : Int) (nowStr : String) : ManagerState × Reply :=
  match findByEmbyUsername st.bindings embyUsername with
  | none => (st, .userNotFound)
  | some (tid, b) =>
    let newExpire := renewExpiry b.expireAt now days
    let b2 : Binding :=
      { b with
          expireAt := newExpire
          renewHistory := b.renewHistory ++ [⟨nowStr, days, "admin_direct", "admin"⟩] }
    ({ st with bindings := dictSet st.bindings tid b2 },
     .adminRenewed b.expireAt newExpire days)

/-- `clear_logs` (lines 198-227): keep only unused tokens and reset every
binding's `renew_history` to the empty list. -/
def clearLogs (st : ManagerState) : ManagerState :=
  { tokens := st.tokens.filter (fun p => p.2.status = "unused")
    bindings := st.bindings.map (fun p => (p.1, { p.2 with renewHistory := [] })) }

/-- `_check_expired_users` (lines 971-1002): for every binding, send a
reminder when the remaining days hit one of the configured thresholds, and
when `days_left < 0` with `auto_delete_expired` enabled delete the Emby
account and remove the binding (there is no disabled state and no grace
period).  The result pairs the surviving bindings with the reminded ids. -/
def checkExpiredUsers (now : Int) (remindDays : List Int)
    (notifyEnabled autoDelete : Bool) (deleteOk : String → Bool) :
    List (String × Binding) → List (String × Binding) × List String
  | [] => ([], [])
  | (tid, b) :: rest =>
    let dl := daysBetween b.expireAt now
    let reminders := if dl ∈ remindDays ∧ notifyEnabled then [tid] else []
    let rr := checkExpiredUsers now remindDays notifyEnabled autoDelete deleteOk rest
    if dl < 0 ∧ autoDelete ∧ deleteOk tid then (rr.1, reminders ++ rr.2)
    else ((tid, b) :: rr.1, reminders ++ rr.2)

end EUM

/-! Arithmetic facts about day truncation used by the theorems below. -/

theorem ediv_add_days (t : Int) (d : Nat) :
    (t + 86400 * (d : Int)) / 86400 = t / 86400 + d := by
  rw [mul_comm]
  exact Int.add_mul_ediv_right t d (by norm_num)

theorem toDate_add_days (t : Int) (d : Nat) :
    toDate (t + 86400 * (d : Int)) = toDate t + 86400 * (d : Int) := by
  unfold toDate
  rw [ediv_add_days]
  ring

theorem toDate_le_self (t : Int) : toDate t ≤ t := by
  unfold toDate
  rw [mul_comm]
  exact Int.ediv_mul_le t (by norm_num)

theorem toDate_day_aligned (k : Int) : toDate (86400 * k) = 86400 * k := by
  unfold toDate
  rw [Int.mul_ediv_cancel_left k (by norm_num)]

theorem day_aligned_le_toDate {k now : Int} (h : 86400 * k < now) :
    86400 * k ≤ toDate now := by
  have h2 : k * 86400 ≤ now := by
    rw [mul_comm]
    exact h.le
  have hk : k ≤ now / 86400 := (Int.le_ediv_iff_mul_le (by norm_num)).mpr h2
  exact mul_le_mul_of_nonneg_left hk (by norm_num)

/-- C1: for every binding and every successful renewal granting `d` days at
time `now`, the new expiry is `max(old expiry, now) + d` days: in
`embyregisterbot` exactly, at second granularity; in `embyusermanager`, whose
stored expiry is a midnight-aligned date `86400 * k`, exactly at date
granularity, with `now` entering as the current date `toDate now`.  In both
implementations a renewal never moves the expiry backwards. -/
theorem renewal_expiry_is_max_plus_grant :
    (∀ (oldExpire now : Int) (days : Nat),
      ERB.renewExpiry oldExpire now days = max oldExpire now + 86400 * (days : Int)) ∧
    (∀ (k now : Int) (days : Nat),
      EUM.renewExpiry (86400 * k) now days
        = max (86400 * k) (toDate now) + 86400 * (days : Int)) := by
  constructor
  · intro oldExpire now days
    unfold ERB.renewExpiry
    rcases lt_or_le oldExpire now with h | h
    · rw [if_pos h, max_eq_right h.le]
    · rw [if_neg (not_lt.mpr h), max_eq_left h]
  · intro k now days
    unfold EUM.renewExpiry
    rcases lt_or_le (86400 * k) now with h | h
    · rw [if_pos h, toDate_add_days, max_eq_right (day_aligned_le_toDate h)]
    · rw [if_neg (not_lt.mpr h), toDate_add_days, toDate_day_aligned,
        max_eq_left (le_trans (toDate_le_self now) h)]

/-- C2 counterexample: in `embyregisterbot` a redeemed code is deleted from
the registry, so the second redemption attempt is answered with the invalid
code reply, the very same reply produced for a code that was never issued:
the second redeemer cannot observe a distinct already-used error. -/
theorem second_redemption_reply_cex :
    (ERB.cmdRegister [] [("ABC", 30)] 1 "u" "e" "ABC" 0 "t" true "id1").2.2
        = .registered 2592000 30 ∧
    (ERB.cmdRegister (ERB.cmdRegister [] [("ABC", 30)] 1 "u" "e" "ABC" 0 "t" true "id1").1
        (ERB.cmdRegister [] [("ABC", 30)] 1 "u" "e" "ABC" 0 "t" true "id1").2.1
        2 "v" "f" "ABC" 0 "t" true "id2").2.2 = .invalidCode ∧
    (ERB.cmdRegister [] [] 2 "v" "f" "NEVERISSUED" 0 "t" true "id2").2.2
        = .invalidCode := by
  decide

/-- C2 amended: redemption of a code succeeds at most once in both
implementations.  In `embyusermanager` the token is marked used and every
later register or renew attempt with it is answered with the already-used
reply.  In `embyregisterbot` the code is deleted from the registry on use,
so every later attempt (register or renew) is answered with the invalid-code
reply, indistinguishable from a code that never existed, rather than a
distinct already-used error. -/
theorem redemption_succeeds_at_most_once :
    (∀ (users : List (Nat × ERB.UserInfo)) (codes : List (String × Nat))
        (uid : Nat) (un en c : String) (now : Int) (ns : String) (id1 : String) (d : Nat),
      dictGet users uid = none → dictGet codes c = some d →
      (ERB.cmdRegister users codes uid un en c now ns true id1).2.2
          = .registered (now + 86400 * (d : Int)) d ∧
      dictGet (ERB.cmdRegister users codes uid un en c now ns true id1).2.1 c = none ∧
      (∀ (uid2 : Nat) (un2 en2 : String) (now2 : Int) (ns2 : String) (ok2 : Bool) (id2 : String),
        dictGet (ERB.cmdRegister users codes uid un en c now ns true id1).1 uid2 = none →
        (ERB.cmdRegister (ERB.cmdRegister users codes uid un en c now ns true id1).1
            (ERB.cmdRegister users codes uid un en c now ns true id1).2.1
            uid2 un2 en2 c now2 ns2 ok2 id2).2.2 = .invalidCode) ∧
      (∀ (uid3 : Nat) (info3 : ERB.UserInfo) (now3 : Int) (e3 : Bool),
        dictGet (ERB.cmdRegister users codes uid un en c now ns true id1).1 uid3 = some info3 →
        (ERB.cmdRenew (ERB.cmdRegister users codes uid un en c now ns true id1).1
            (ERB.cmdRegister users codes uid un en c now ns true id1).2.1
            uid3 c now3 e3).2.2 = .invalidCode)) ∧
    (∀ (st : EUM.ManagerState) (uid un tok : String) (now : Int) (ns id1 : String)
        (ti : EUM.TokenInfo),
      dictGet st.bindings uid = none → dictGet st.tokens tok = some ti →
      ti.kind = "register" → ti.status = "unused" →
      (EUM.handleRegister st uid un tok now ns true id1).2 = .registered ∧
      (dictGet (EUM.handleRegister st uid un tok now ns true id1).1.tokens tok).map
          EUM.TokenInfo.status = some "used" ∧
      (∀ (uid2 un2 : String) (now2 : Int) (ns2 : String) (ok2 : Bool) (id2 : String),
        dictGet (EUM.handleRegister st uid un tok now ns true id1).1.bindings uid2 = none →
        (EUM.handleRegister (EUM.handleRegister st uid un tok now ns true id1).1
            uid2 un2 tok now2 ns2 ok2 id2).2 = .tokenAlreadyUsed)) ∧
    (∀ (st : EUM.ManagerState) (uid tok : String) (now : Int) (ns : String)
        (b : EUM.Binding) (ti : EUM.TokenInfo),
      dictGet st.bindings uid = some b → dictGet st.tokens tok = some ti →
      ti.kind = "renew" → ti.status = "unused" →
      (dictGet (EUM.handleRenew st uid tok now ns).1.tokens tok).map
          EUM.TokenInfo.status = some "used" ∧
      (∀ (uid2 : String) (b2 : EUM.Binding) (now2 : Int) (ns2 : String),
        dictGet (EUM.handleRenew st uid tok now ns).1.bindings uid2 = some b2 →
        (EUM.handleRenew (EUM.handleRenew st uid tok now ns).1 uid2 tok now2 ns2).2
            = .renewTokenAlreadyUsed)) := by
  refine ⟨?_, ?_, ?_⟩
  · intro users codes uid un en c now ns id1 d hu hc
    have hreg : ERB.cmdRegister users codes uid un en c now ns true id1 =
        (dictSet users uid
          { tgUsername := "@" ++ un, embyUsername := en, embyUserId := id1,
            registerTime := ns, expireTime := now + 86400 * (d : Int),
            status := "active", disabledTime := none },
         dictDel codes c, .registered (now + 86400 * (d : Int)) d) := by
      simp [ERB.cmdRegister, hu, hc]
    refine ⟨by rw [hreg], ?_, ?_, ?_⟩
    · rw [hreg]
      exact dictGet_dictDel_self codes c
    · intro uid2 un2 en2 now2 ns2 ok2 id2 hu2
      rw [hreg] at hu2 ⊢
      simp at hu2
      simp [ERB.cmdRegister, hu2, dictGet_dictDel_self]
    · intro uid3 info3 now3 e3 hu3
      rw [hreg] at hu3 ⊢
      simp at hu3
      simp [ERB.cmdRenew, hu3, dictGet_dictDel_self]
  · intro st uid un tok now ns id1 ti hu ht hk hs
    have hreg : EUM.handleRegister st uid un tok now ns true id1 =
        (EUM.ManagerState.mk
          (dictSet st.tokens tok
            ({ ti with
                status := "used", usedByTgId := some uid,
                usedByEmbyUsername := some ("user_" ++ uid), usedAt := some ns }))
          (dictSet st.bindings uid
            ({ telegramId := uid,
                telegramUsername := un,
                embyUsername := "user_" ++ uid, embyUserId := id1,
                createdAt := ns, expireAt := toDate (now + 86400 * (ti.days : Int)),
                renewHistory := [⟨ns, ti.days, tok, "register"⟩] })),
         .registered) := by
      simp [EUM.handleRegister, hu, ht, hk, hs]
    refine ⟨by rw [hreg], ?_, ?_⟩
    · rw [hreg]
      simp [dictGet_dictSet_self]
    · intro uid2 un2 now2 ns2 ok2 id2 hu2
      rw [hreg] at hu2 ⊢
      simp at hu2
      simp [EUM.handleRegister, hu2, dictGet_dictSet_self, hk]
  · intro st uid tok now ns b ti hu ht hk hs
    have hren : EUM.handleRenew st uid tok now ns =
        (EUM.ManagerState.mk
          (dictSet st.tokens tok
            ({ ti with
                status := "used", usedByTgId := some uid,
                usedByEmbyUsername := some b.embyUsername, usedAt := some ns }))
          (dictSet st.bindings uid
            ({ b with
                expireAt := EUM.renewExpiry b.expireAt now ti.days,
                renewHistory := b.renewHistory ++ [⟨ns, ti.days, tok, "self"⟩] })),
         .renewed b.expireAt (EUM.renewExpiry b.expireAt now ti.days) ti.days) := by
      simp [EUM.handleRenew, hu, ht, hk, hs]
    refine ⟨?_, ?_⟩
    · rw [hren]
      simp [dictGet_dictSet_self]
    · intro uid2 b2 now2 ns2 hu2
      rw [hren] at hu2 ⊢
      simp at hu2
      simp [EUM.handleRenew, hu2, dictGet_dictSet_self, hk]

/-- Witness for C2: the at-most-once theorem applied at concrete states:
a consumed code is gone from the `embyregisterbot` registry, a redeemed
`embyusermanager` register token reports success, and a redeemed renew
token is marked used. -/
theorem redemption_at_most_once_witness :
    dictGet (ERB.cmdRegister [] [("C", 5)] 1 "u" "e" "C" 0 "t" true "x").2.1 "C" = none ∧
    (EUM.handleRegister
        ⟨[("T", ⟨"T", "register", "g", 5, "unused", none, none, none⟩)], []⟩
        "1" "u" "T" 0 "t" true "x").2 = .registered ∧
    (dictGet (EUM.handleRenew
        ⟨[("R", ⟨"R", "renew", "g", 5, "unused", none, none, none⟩)],
         [("1", ⟨"1", "u", "user_1", "x", "c", 0, []⟩)]⟩
        "1" "R" 0 "t").1.tokens "R").map EUM.TokenInfo.status = some "used" := by
  refine ⟨?_, ?_, ?_⟩
  · exact (redemption_succeeds_at_most_once.1 [] [("C", 5)] 1 "u" "e" "C" 0 "t" "x" 5
      (by decide) (by decide)).2.1
  · exact (redemption_succeeds_at_most_once.2.1
      ⟨[("T", ⟨"T", "register", "g", 5, "unused", none, none, none⟩)], []⟩
      "1" "u" "T" 0 "t" "x" ⟨"T", "register", "g", 5, "unused", none, none, none⟩
      (by decide) (by decide) (by decide) (by decide)).1
  · exact (redemption_succeeds_at_most_once.2.2
      ⟨[("R", ⟨"R", "renew", "g", 5, "unused", none, none, none⟩)],
       [("1", ⟨"1", "u", "user_1", "x", "c", 0, []⟩)]⟩
      "1" "R" 0 "t" ⟨"1", "u", "user_1", "x", "c", 0, []⟩
      ⟨"R", "renew", "g", 5, "unused", none, none, none⟩
      (by decide) (by decide) (by decide) (by decide)).1

/-- C3 counterexample: in `embyusermanager`, when account provisioning fails
during registration, no binding is created and the error is reported, but
the redeemed token's status is still "unused" — not "used" as the claim
demands ("spent on attempt"): the very same code can be presented again. -/
theorem provisioning_failure_code_state_cex :
    (EUM.handleRegister
        ⟨[("T", ⟨"T", "register", "g", 30, "unused", none, none, none⟩)], []⟩
        "5" "u" "T" 0 "t" false "x").1.bindings = [] ∧
    (dictGet (EUM.handleRegister
        ⟨[("T", ⟨"T", "register", "g", 30, "unused", none, none, none⟩)], []⟩
        "5" "u" "T" 0 "t" false "x").1.tokens "T").map EUM.TokenInfo.status
      = some "unused" ∧
    ¬ (dictGet (EUM.handleRegister
        ⟨[("T", ⟨"T", "register", "g", 30, "unused", none, none, none⟩)], []⟩
        "5" "u" "T" 0 "t" false "x").1.tokens "T").map EUM.TokenInfo.status
      = some "used" ∧
    (EUM.handleRegister
        ⟨[("T", ⟨"T", "register", "g", 30, "unused", none, none, none⟩)], []⟩
        "5" "u" "T" 0 "t" false "x").2 = .createFailed := by
  decide

/-- C3 amended: when provisioning fails during Register, no binding is
created and the error is surfaced to the caller, but in both implementations
the code is spent only on success, not on attempt: the whole state is
returned unchanged, so the code remains redeemable. -/
theorem register_abort_keeps_code_unredeemed :
    (∀ (st : EUM.ManagerState) (uid un tok : String) (now : Int) (ns id1 : String)
        (ti : EUM.TokenInfo),
      dictGet st.bindings uid = none → dictGet st.tokens tok = some ti →
      ti.kind = "register" → ti.status = "unused" →
      EUM.handleRegister st uid un tok now ns false id1 = (st, .createFailed)) ∧
    (∀ (users : List (Nat × ERB.UserInfo)) (codes : List (String × Nat))
        (uid : Nat) (un en c : String) (now : Int) (ns id1 : String) (d : Nat),
      dictGet users uid = none → dictGet codes c = some d →
      ERB.cmdRegister users codes uid un en c now ns false id1
        = (users, codes, .createFailed)) := by
  constructor
  · intro st uid un tok now ns id1 ti hu ht hk hs
    simp [EUM.handleRegister, hu, ht, hk, hs]
  · intro users codes uid un en c now ns id1 d hu hc
    simp [ERB.cmdRegister, hu, hc]

/-- Witness for C3: the abort theorem applied at concrete states. -/
theorem register_abort_witness :
    EUM.handleRegister
        ⟨[("U", ⟨"U", "register", "g", 7, "unused", none, none, none⟩)], []⟩
        "9" "u" "U" 0 "t" false "x"
      = (⟨[("U", ⟨"U", "register", "g", 7, "unused", none, none, none⟩)], []⟩,
         .createFailed) ∧
    ERB.cmdRegister [] [("D", 5)] 2 "u" "e" "D" 0 "t" false "x"
      = ([], [("D", 5)], .createFailed) := by
  refine ⟨?_, ?_⟩
  · exact register_abort_keeps_code_unredeemed.1
      ⟨[("U", ⟨"U", "register", "g", 7, "unused", none, none, none⟩)], []⟩
      "9" "u" "U" 0 "t" "x" ⟨"U", "register", "g", 7, "unused", none, none, none⟩
      (by decide) (by decide) (by decide) (by decide)
  · exact register_abort_keeps_code_unredeemed.2 [] [("D", 5)] 2 "u" "e" "D" 0 "t" "x" 5
      (by decide) (by decide)

/-- C4 counterexample: in `embyusermanager` with `auto_delete_expired`
enabled, a binding that expired only one day ago — and was never disabled,
the data model having no disabled state at all — is removed outright by a
single run of the daily check: deletion happens with no disabled phase and
no seven-day grace period. -/
theorem sweeper_direct_delete_cex :
    (EUM.checkExpiredUsers 0 [7, 3, 1] true true (fun _ => true)
        [("7", ⟨"7", "u", "user_7", "x", "c", -86400, []⟩)]).1 = [] ∧
    daysBetween (-86400) 0 = -1 ∧
    ¬ (7 : Int) ≤ daysBetween 0 (-86400) := by
  decide

/-- C4 amended: `embyregisterbot`'s sweeper obeys the claim — a binding
leaves the sweep with status "deleted" only if it already was deleted, or
was disabled with at least seven days elapsed since its disabled time (it is
never deleted directly from "active").  `embyusermanager`'s daily check,
however, when `auto_delete_expired` is enabled and the gateway delete
succeeds, removes any binding with negative remaining days directly from the
store, with no disabled phase and no grace period. -/
theorem delete_only_after_disable_grace :
    (∀ (now : Int) (dOk eOk : Bool) (info : ERB.UserInfo),
      (ERB.sweepExpiredUser now dOk eOk info).1.status = "deleted" →
      info.status = "deleted" ∨
        (info.status = "disabled" ∧
          7 ≤ daysBetween now (info.disabledTime.getD info.expireTime))) ∧
    (∀ (now : Int) (remindDays : List Int) (notify : Bool) (delOk : String → Bool)
        (tid : String) (b : EUM.Binding),
      daysBetween b.expireAt now < 0 → delOk tid = true →
      (EUM.checkExpiredUsers now remindDays notify true delOk [(tid, b)]).1 = []) := by
  constructor
  · intro now dOk eOk info h
    unfold ERB.sweepExpiredUser at h
    by_cases h1 : info.status = "active" ∧ info.expireTime < now
    · rw [if_pos h1] at h
      cases dOk with
      | true => simp at h
      | false =>
        simp at h
        rw [h] at h1
        simp at h1
    · rw [if_neg h1] at h
      by_cases h2 : info.status = "disabled"
      · rw [if_pos h2] at h
        by_cases h3 : 7 ≤ daysBetween now (info.disabledTime.getD info.expireTime)
        · exact Or.inr ⟨h2, h3⟩
        · rw [if_neg h3] at h
          simp at h
          rw [h] at h2
          simp at h2
      · rw [if_neg h2] at h
        simp at h
        exact Or.inl h
  · intro now remindDays notify delOk tid b hdl hok
    simp [EUM.checkExpiredUsers, hdl, hok]

/-- Witness for C4: the grace-discipline theorem applied at concrete inputs:
a binding disabled eight days before the sweep is deleted and satisfies the
grace condition, and a one-day-expired manager binding is dropped. -/
theorem delete_only_after_disable_grace_witness :
    ((⟨"@a", "a", "x", "t", -900000, "disabled", some (-691200)⟩ : ERB.UserInfo).status
        = "deleted" ∨
      ((⟨"@a", "a", "x", "t", -900000, "disabled", some (-691200)⟩ : ERB.UserInfo).status
          = "disabled" ∧
        7 ≤ daysBetween 0 ((⟨"@a", "a", "x", "t", -900000, "disabled",
          some (-691200)⟩ : ERB.UserInfo).disabledTime.getD (-900000)))) ∧
    (EUM.checkExpiredUsers 0 [7, 3, 1] true true (fun _ => true)
        [("9", ⟨"9", "u", "user_9", "x", "c", -86400, []⟩)]).1 = [] := by
  refine ⟨?_, ?_⟩
  · exact delete_only_after_disable_grace.1 0 true true
      ⟨"@a", "a", "x", "t", -900000, "disabled", some (-691200)⟩ (by decide)
  · exact delete_only_after_disable_grace.2 0 [7, 3, 1] true (fun _ => true) "9"
      ⟨"9", "u", "user_9", "x", "c", -86400, []⟩ (by decide) rfl

/-- C5: saving through `_generate_config_text` and reloading through
`_parse_registered_users` is not lossless.  A binding whose expiry lies
twelve hours in the future is persisted as `days_left = 0` (whole days,
clamped at zero) and reloaded — at the very same instant — with its expiry
rebased to the load-time clock: the reloaded expiry is `now`, not the
original absolute timestamp, so twelve hours of entitlement vanish. -/
theorem save_load_drops_fractional_day :
    (ERB.loadUser 0 (ERB.saveUser 0 1
        (⟨"@a", "a", "x", "t", 43200, "active", none⟩ : ERB.UserInfo))).2.expireTime = 0 ∧
    (⟨"@a", "a", "x", "t", 43200, "active", none⟩ : ERB.UserInfo).expireTime = 43200 ∧
    ¬ (ERB.loadUser 0 (ERB.saveUser 0 1
        (⟨"@a", "a", "x", "t", 43200, "active", none⟩ : ERB.UserInfo))).2
      = (⟨"@a", "a", "x", "t", 43200, "active", none⟩ : ERB.UserInfo) := by
  decide

theorem sweepExpiredUser_second_run (now : Int) (dOk eOk : Bool) (info : ERB.UserInfo) :
    ERB.sweepExpiredUser now dOk eOk (ERB.sweepExpiredUser now dOk eOk info).1
      = ((ERB.sweepExpiredUser now dOk eOk info).1, []) := by
  by_cases h1 : info.status = "active" ∧ info.expireTime < now
  · cases dOk with
    | true =>
      have e1 : ERB.sweepExpiredUser now true eOk info
          = ({ info with status := "disabled", disabledTime := some now },
             [.disabledNotice]) := by
        simp [ERB.sweepExpiredUser, h1]
      rw [e1]
      simp [ERB.sweepExpiredUser, daysBetween_self]
    | false =>
      have e1 : ERB.sweepExpiredUser now false eOk info = (info, []) := by
        simp [ERB.sweepExpiredUser, h1]
      rw [e1]
      simp [ERB.sweepExpiredUser, h1]
  · by_cases h2 : info.status = "disabled"
    · by_cases h3 : 7 ≤ daysBetween now (info.disabledTime.getD info.expireTime)
      · cases eOk with
        | true =>
          have e1 : ERB.sweepExpiredUser now dOk true info
              = ({ info with status := "deleted" }, [.deletedNotice]) := by
            simp [ERB.sweepExpiredUser, h1, h2, h3]
          rw [e1]
          simp [ERB.sweepExpiredUser]
        | false =>
          have e1 : ERB.sweepExpiredUser now dOk false info = (info, []) := by
            simp [ERB.sweepExpiredUser, h1, h2, h3]
          rw [e1]
          simp [ERB.sweepExpiredUser, h1, h2, h3]
      · have e1 : ERB.sweepExpiredUser now dOk eOk info = (info, []) := by
          simp [ERB.sweepExpiredUser, h1, h2, h3]
        rw [e1]
        simp [ERB.sweepExpiredUser, h1, h2, h3]
    · have e1 : ERB.sweepExpiredUser now dOk eOk info = (info, []) := by
        simp [ERB.sweepExpiredUser, h1, h2]
      rw [e1]
      simp [ERB.sweepExpiredUser, h1, h2]

theorem checkExpiredUsers_second_run (now : Int) (dOk eOk : Nat → Bool)
    (users : List (Nat × ERB.UserInfo)) :
    ERB.checkExpiredUsers now dOk eOk (ERB.checkExpiredUsers now dOk eOk users).1
      = ((ERB.checkExpiredUsers now dOk eOk users).1, []) := by
  induction users with
  | nil => rfl
  | cons p rest ih =>
    obtain ⟨uid, info⟩ := p
    simp [ERB.checkExpiredUsers, sweepExpiredUser_second_run, ih]

/-- C6 counterexample: one active user two days from expiry, warning window
three days.  A sweep leaves the state unchanged and emits the warning; a
second sweep at the very same instant emits the same warning again — an
additional notification, contradicting the claimed idempotence. -/
theorem sweeper_rewarns_cex :
    ERB.fullSweep 0 3 (fun _ => true) (fun _ => true)
        [(1, ⟨"@a", "a", "x", "t", 172800, "active", none⟩)]
      = ([(1, ⟨"@a", "a", "x", "t", 172800, "active", none⟩)], [(1, 2)], []) ∧
    ERB.fullSweep 0 3 (fun _ => true) (fun _ => true)
        (ERB.fullSweep 0 3 (fun _ => true) (fun _ => true)
          [(1, ⟨"@a", "a", "x", "t", 172800, "active", none⟩)]).1
      = ([(1, ⟨"@a", "a", "x", "t", 172800, "active", none⟩)], [(1, 2)], []) ∧
    ¬ ([((1 : Nat), (2 : Int))] = ([] : List (Nat × Int))) := by
  decide

/-- C6 amended: a second run of `embyregisterbot`'s hourly sweep at the same
instant with the same gateway outcomes changes no binding state and emits no
disable or delete notification, but it re-emits the expiry warnings: every
active binding inside the warning window is warned again on every sweep, not
once per threshold crossing. -/
theorem sweeper_second_run_only_rewarns
    (now warnDays : Int) (dOk eOk : Nat → Bool) (users : List (Nat × ERB.UserInfo)) :
    ERB.fullSweep now warnDays dOk eOk (ERB.fullSweep now warnDays dOk eOk users).1
      = ((ERB.fullSweep now warnDays dOk eOk users).1,
         ERB.expiringWarnings now warnDays (ERB.fullSweep now warnDays dOk eOk users).1,
         []) := by
  simp [ERB.fullSweep, checkExpiredUsers_second_run]

/-- C7 counterexample: a binding whose status is "deleted" is accepted by
`/renew` — `_cmd_renew` never checks the status — and its expiry is mutated,
the code consumed and success reported, instead of the renewal being
rejected. -/
theorem renew_deleted_accepted_cex :
    ERB.cmdRenew [(1, ⟨"@a", "a", "x", "t", 100, "deleted", none⟩)] [("C", 3)]
        1 "C" 200 true
      = ([(1, ⟨"@a", "a", "x", "t", 259400, "deleted", none⟩)], [],
         .renewed 259400 3) := by
  decide

/-- C7 amended: a deleted binding is skipped by both sweeper passes and is
excluded from the persisted configuration, but `/renew` does not reject it:
a renew presented for a deleted binding succeeds and mutates its expiry
(leaving the status "deleted"). -/
theorem deleted_skipped_by_sweep_but_renewable :
    (∀ (now : Int) (dOk eOk : Bool) (info : ERB.UserInfo),
      info.status = "deleted" → ERB.sweepExpiredUser now dOk eOk info = (info, [])) ∧
    (∀ (now warnDays : Int) (uid : Nat) (info : ERB.UserInfo),
      info.status = "deleted" → ERB.expiringWarnings now warnDays [(uid, info)] = []) ∧
    (∀ (now : Int) (users : List (Nat × ERB.UserInfo)) (s : ERB.SavedUser),
      s ∈ ERB.generateUsersConfig now users → ¬ s.status = "deleted") ∧
    (∀ (users : List (Nat × ERB.UserInfo)) (codes : List (String × Nat))
        (uid : Nat) (c : String) (now : Int) (eOk : Bool) (d : Nat) (info : ERB.UserInfo),
      dictGet users uid = some info → info.status = "deleted" →
      dictGet codes c = some d →
      ERB.cmdRenew users codes uid c now eOk
        = (dictSet users uid
            ({ info with expireTime := ERB.renewExpiry info.expireTime now d }),
           dictDel codes c,
           .renewed (ERB.renewExpiry info.expireTime now d) d)) := by
  refine ⟨?_, ?_, ?_, ?_⟩
  · intro now dOk eOk info h
    simp [ERB.sweepExpiredUser, h]
  · intro now warnDays uid info h
    simp [ERB.expiringWarnings, h]
  · intro now users
    induction users with
    | nil =>
      intro s hs
      simp [ERB.generateUsersConfig] at hs
    | cons p rest ih =>
      intro s hs
      obtain ⟨uid, info⟩ := p
      by_cases h : info.status = "deleted"
      · rw [ERB.generateUsersConfig, if_pos h] at hs
        exact ih s hs
      · rw [ERB.generateUsersConfig, if_neg h] at hs
        rcases List.mem_cons.mp hs with hs | hs
        · subst hs
          simpa [ERB.saveUser] using h
        · exact ih s hs
  · intro users codes uid c now eOk d info hu hst hc
    simp [ERB.cmdRenew, hu, hc, hst]

/-- Witness for C7: the theorem applied at concrete inputs — a deleted
binding untouched by both passes, a saved record from a one-user table, and
a concrete deleted binding renewed by a valid code. -/
theorem deleted_skipped_but_renewable_witness :
    ERB.sweepExpiredUser 0 true true (⟨"@b", "b", "y", "t", -100, "deleted", none⟩)
      = ((⟨"@b", "b", "y", "t", -100, "deleted", none⟩ : ERB.UserInfo), []) ∧
    ERB.expiringWarnings 0 3 [(2, ⟨"@b", "b", "y", "t", 100000, "deleted", none⟩)] = [] ∧
    ¬ (ERB.saveUser 0 3 (⟨"@c", "c", "z", "t", 500, "active", none⟩)).status = "deleted" ∧
    ERB.cmdRenew [(4, ⟨"@d", "d", "w", "t", 50, "deleted", none⟩)] [("E", 1)] 4 "E" 60 false
      = (dictSet [(4, ⟨"@d", "d", "w", "t", 50, "deleted", none⟩)] 4
          ({ (⟨"@d", "d", "w", "t", 50, "deleted", none⟩ : ERB.UserInfo) with
              expireTime := ERB.renewExpiry 50 60 1 }),
         dictDel [("E", 1)] "E",
         .renewed (ERB.renewExpiry 50 60 1) 1) := by
  refine ⟨?_, ?_, ?_, ?_⟩
  · exact deleted_skipped_by_sweep_but_renewable.1 0 true true _ rfl
  · exact deleted_skipped_by_sweep_but_renewable.2.1 0 3 2
      ⟨"@b", "b", "y", "t", 100000, "deleted", none⟩ rfl
  · exact deleted_skipped_by_sweep_but_renewable.2.2.1 0
      [(3, ⟨"@c", "c", "z", "t", 500, "active", none⟩)]
      (ERB.saveUser 0 3 (⟨"@c", "c", "z", "t", 500, "active", none⟩)) (by decide)
  · exact deleted_skipped_by_sweep_but_renewable.2.2.2
      [(4, ⟨"@d", "d", "w", "t", 50, "deleted", none⟩)] [("E", 1)] 4 "E" 60 false 1
      ⟨"@d", "d", "w", "t", 50, "deleted", none⟩ (by decide) rfl (by decide)

/-- C8 counterexample: the exposed `clear_logs` endpoint resets a binding's
non-empty grant history to the empty list — the history is truncated, not
append-only under every exposed operation. -/
theorem clear_logs_truncates_history_cex :
    (dictGet (EUM.clearLogs
        ⟨[], [("1", ⟨"1", "u", "user_1", "x", "c", 0,
            [⟨"t", 30, "T", "register"⟩]⟩)]⟩).bindings "1").map
      EUM.Binding.renewHistory = some [] ∧
    ¬ (some ([] : List EUM.RenewEvent) = some [⟨"t", 30, "T", "register"⟩]) := by
  decide

/-- C8 amended: in `embyusermanager`, Register creates a history holding
exactly the one registration event, Renew and AdminDirectRenew each append
exactly one event to the existing history, preserving all prior events; but
the exposed `clear_logs` API truncates every binding's history to the empty
list (and drops every used token), so the history is not append-only under
every exposed operation. -/
theorem history_under_operations :
    (∀ (st : EUM.ManagerState) (uid un tok : String) (now : Int) (ns id1 : String)
        (ti : EUM.TokenInfo),
      dictGet st.bindings uid = none → dictGet st.tokens tok = some ti →
      ti.kind = "register" → ti.status = "unused" →
      (dictGet (EUM.handleRegister st uid un tok now ns true id1).1.bindings uid).map
        EUM.Binding.renewHistory = some [⟨ns, ti.days, tok, "register"⟩]) ∧
    (∀ (st : EUM.ManagerState) (uid tok : String) (now : Int) (ns : String)
        (b : EUM.Binding) (ti : EUM.TokenInfo),
      dictGet st.bindings uid = some b → dictGet st.tokens tok = some ti →
      ti.kind = "renew" → ti.status = "unused" →
      (dictGet (EUM.handleRenew st uid tok now ns).1.bindings uid).map
        EUM.Binding.renewHistory
        = some (b.renewHistory ++ [⟨ns, ti.days, tok, "self"⟩])) ∧
    (∀ (st : EUM.ManagerState) (name : String) (d : Nat) (now : Int) (ns : String)
        (tid : String) (b : EUM.Binding),
      EUM.findByEmbyUsername st.bindings name = some (tid, b) →
      (dictGet (EUM.handleRenewUser st name d now ns).1.bindings tid).map
        EUM.Binding.renewHistory
        = some (b.renewHistory ++ [⟨ns, d, "admin_direct", "admin"⟩])) ∧
    (∀ (st : EUM.ManagerState) (tid : String) (b : EUM.Binding),
      dictGet st.bindings tid = some b →
      dictGet (EUM.clearLogs st).bindings tid = some ({ b with renewHistory := [] })) := by
  refine ⟨?_, ?_, ?_, ?_⟩
  · intro st uid un tok now ns id1 ti hu ht hk hs
    simp [EUM.handleRegister, hu, ht, hk, hs, dictGet_dictSet_self]
  · intro st uid tok now ns b ti hu ht hk hs
    simp [EUM.handleRenew, hu, ht, hk, hs, dictGet_dictSet_self]
  · intro st name d now ns tid b hf
    simp [EUM.handleRenewUser, hf, dictGet_dictSet_self]
  · intro st tid b h
    exact (dictGet_map_value st.bindings
      (fun bb => ({ bb with renewHistory := ([] : List EUM.RenewEvent) })) tid).trans
      (by rw [h])

/-- Witness for C8: the history theorem applied at a concrete state covering
all four operations. -/
theorem history_under_operations_witness :
    (dictGet (EUM.handleRegister
        ⟨[("T", ⟨"T", "register", "g", 5, "unused", none, none, none⟩)], []⟩
        "1" "u" "T" 0 "t" true "x").1.bindings "1").map EUM.Binding.renewHistory
      = some [⟨"t", 5, "T", "register"⟩] ∧
    (dictGet (EUM.handleRenew
        ⟨[("R", ⟨"R", "renew", "g", 5, "unused", none, none, none⟩)],
         [("2", ⟨"2", "u", "user_2", "x", "c", 0, [⟨"t0", 9, "Z", "register"⟩]⟩)]⟩
        "2" "R" 0 "t").1.bindings "2").map EUM.Binding.renewHistory
      = some ([⟨"t0", 9, "Z", "register"⟩] ++ [⟨"t", 5, "R", "self"⟩]) ∧
    (dictGet (EUM.handleRenewUser
        ⟨[], [("3", ⟨"3", "u", "user_3", "x", "c", 0, []⟩)]⟩
        "user_3" 4 0 "t").1.bindings "3").map EUM.Binding.renewHistory
      = some ([] ++ [⟨"t", 4, "admin_direct", "admin"⟩]) ∧
    dictGet (EUM.clearLogs
        ⟨[], [("4", ⟨"4", "u", "user_4", "x", "c", 0, [⟨"t0", 9, "Z", "register"⟩]⟩)]⟩).bindings
        "4"
      = some ({ (⟨"4", "u", "user_4", "x", "c", 0,
          [⟨"t0", 9, "Z", "register"⟩]⟩ : EUM.Binding) with renewHistory := [] }) := by
  refine ⟨?_, ?_, ?_, ?_⟩
  · exact history_under_operations.1
      ⟨[("T", ⟨"T", "register", "g", 5, "unused", none, none, none⟩)], []⟩
      "1" "u" "T" 0 "t" "x" ⟨"T", "register", "g", 5, "unused", none, none, none⟩
      (by decide) (by decide) (by decide) (by decide)
  · exact history_under_operations.2.1
      ⟨[("R", ⟨"R", "renew", "g", 5, "unused", none, none, none⟩)],
       [("2", ⟨"2", "u", "user_2", "x", "c", 0, [⟨"t0", 9, "Z", "register"⟩]⟩)]⟩
      "2" "R" 0 "t" ⟨"2", "u", "user_2", "x", "c", 0, [⟨"t0", 9, "Z", "register"⟩]⟩
      ⟨"R", "renew", "g", 5, "unused", none, none, none⟩
      (by decide) (by decide) (by decide) (by decide)
  · exact history_under_operations.2.2.1
      ⟨[], [("3", ⟨"3", "u", "user_3", "x", "c", 0, []⟩)]⟩
      "user_3" 4 0 "t" "3" ⟨"3", "u", "user_3", "x", "c", 0, []⟩ (by decide)
  · exact history_under_operations.2.2.2
      ⟨[], [("4", ⟨"4", "u", "user_4", "x", "c", 0, [⟨"t0", 9, "Z", "register"⟩]⟩)]⟩
      "4" ⟨"4", "u", "user_4", "x", "c", 0, [⟨"t0", 9, "Z", "register"⟩]⟩ (by decide)

/-- C10: when `/renew` is applied to a disabled binding and the gateway
enable call fails, the renewal still completes: the success reply is
returned, the expiry is extended by the standard rule, the code is deleted
from the registry, and the binding's status remains "disabled" — re-enabling
and entitlement extension are not atomic with each other. -/
theorem renew_disabled_enable_failure_completes
    (users : List (Nat × ERB.UserInfo)) (codes : List (String × Nat))
    (uid : Nat) (c : String) (now : Int) (d : Nat) (info : ERB.UserInfo)
    (hu : dictGet users uid = some info) (hst : info.status = "disabled")
    (hc : dictGet codes c = some d) :
    ERB.cmdRenew users codes uid c now false
      = (dictSet users uid
          ({ info with expireTime := ERB.renewExpiry info.expireTime now d }),
         dictDel codes c,
         .renewed (ERB.renewExpiry info.expireTime now d) d) ∧
    (dictGet (ERB.cmdRenew users codes uid c now false).1 uid).map ERB.UserInfo.status
      = some "disabled" := by
  have heq : ERB.cmdRenew users codes uid c now false
      = (dictSet users uid
          ({ info with expireTime := ERB.renewExpiry info.expireTime now d }),
         dictDel codes c,
         .renewed (ERB.renewExpiry info.expireTime now d) d) := by
    simp [ERB.cmdRenew, hu, hc, hst]
  refine ⟨heq, ?_⟩
  rw [heq]
  simp [dictGet_dictSet_self, hst]

/-- Witness for C10: a concrete disabled binding, a failing enable call, and
a valid three-day code: the renewal completes and the status stays
"disabled". -/
theorem renew_disabled_enable_failure_witness :
    ERB.cmdRenew [(1, ⟨"@a", "a", "x", "t", 100, "disabled", some 50⟩)] [("C", 3)]
        1 "C" 200 false
      = (dictSet [(1, ⟨"@a", "a", "x", "t", 100, "disabled", some 50⟩)] 1
          ({ (⟨"@a", "a", "x", "t", 100, "disabled", some 50⟩ : ERB.UserInfo) with
              expireTime := ERB.renewExpiry 100 200 3 }),
         dictDel [("C", 3)] "C",
         .renewed (ERB.renewExpiry 100 200 3) 3) ∧
    (dictGet (ERB.cmdRenew [(1, ⟨"@a", "a", "x", "t", 100, "disabled", some 50⟩)]
        [("C", 3)] 1 "C" 200 false).1 1).map ERB.UserInfo.status = some "disabled" := by
  exact renew_disabled_enable_failure_completes
    [(1, ⟨"@a", "a", "x", "t", 100, "disabled", some 50⟩)] [("C", 3)] 1 "C" 200 3
    ⟨"@a", "a", "x", "t", 100, "disabled", some 50⟩ (by decide) rfl (by decide)

end EmbyVerify
